import Mathlib

/-!
Shallow embedding of `geospatial_utilities.py` (repository
`ahmadhojati/Geospatial_utilities`) and proofs about its behaviour.

Conventions of the embedding:
* Python / numpy floating-point values are modelled as rationals (`ℚ`);
  a possibly-NaN pixel is modelled as `Option ℚ`, with `none` standing
  for NaN.
* Python `int(x)` (truncation toward zero) is `pyInt`.
* An `affine.Affine` transform is the structure `Affine`; `~T` is
  `Affine.inv`, built from the usual 2x2 matrix inverse.
* numpy scalar integer indexing (with negative-index wraparound and
  `IndexError` outside `[-len, len)`) is `npIndex` / `npGet2`, returning
  `none` exactly when Python raises `IndexError`.
* `rasterio` dataset reads with a window are modelled by `readWindow`,
  using rasterio's default behaviour of cropping the requested window to
  the dataset extent; the claims below only exercise windows that lie
  fully inside the extent, where this is exactly the anchored sub-grid.
* `scipy.ndimage.generic_filter(w, f, size=ws, mode=constant, cval=0)`
  is `generic_filter`: for each pixel the row-major flattening of the
  `ws × ws` footprint centred on it (zero padding outside the grid) is
  passed to the per-pixel function.
-/

namespace Geo

/-- Python `int(x)` applied to a rational: truncation toward zero
(floor for nonnegative arguments, ceiling for negative ones). -/
def pyInt (q : ℚ) : Int :=
  if 0 ≤ q then ⌊q⌋ else ⌈q⌉

/-- An affine transform as in the `affine` library: maps pixel
coordinates `(x, y)` to `(a*x + b*y + c, d*x + e*y + f)`. -/
structure Affine where
  a : ℚ
  b : ℚ
  c : ℚ
  d : ℚ
  e : ℚ
  f : ℚ
deriving DecidableEq

/-- Application of an affine transform to a point, `T * (x, y)`. -/
def Affine.apply (T : Affine) (p : ℚ × ℚ) : ℚ × ℚ :=
  (T.a * p.1 + T.b * p.2 + T.c, T.d * p.1 + T.e * p.2 + T.f)

/-- Determinant of the linear part of an affine transform. -/
def Affine.det (T : Affine) : ℚ :=
  T.a * T.e - T.b * T.d

/-- The inverse `~T` of an affine transform (2x2 matrix inverse plus
the induced translation). -/
def Affine.inv (T : Affine) : Affine :=
  { a := T.e / T.det
    b := -T.b / T.det
    c := (T.b * T.f - T.e * T.c) / T.det
    d := -T.d / T.det
    e := T.a / T.det
    f := (T.d * T.c - T.a * T.f) / T.det }

/-- Source `get_utm_zone` (lines 78-91): `zone = int((longitude+180)/6)+1`,
reset to 1 when the result exceeds 60. -/
def get_utm_zone (longitude : ℚ) : Int :=
  let zone_number := pyInt ((longitude + 180) / 6) + 1
  if zone_number > 60 then 1 else zone_number

/-- The ways the embedded Python code can fail. `unboundLocalError` is
what CPython raises when a function body reads a local variable that was
never assigned; `unsupportedHemisphereError` is the error class the spec
asks for. -/
inductive PyError where
  | unboundLocalError
  | unsupportedHemisphereError
deriving DecidableEq

/-- Source `get_epsg_code` (lines 93-108): `32600 + zone` for 'N',
`32700 + zone` for 'S'; any other hemisphere leaves `epsg_code`
unassigned, so the final `return epsg_code` raises `UnboundLocalError`. -/
def get_epsg_code (utm_zone : Int) (hemisphere : Char) : Except PyError Int :=
  if hemisphere = 'N' then Except.ok (32600 + utm_zone)
  else if hemisphere = 'S' then Except.ok (32700 + utm_zone)
  else Except.error PyError.unboundLocalError

/-- Source line 32: `hemisphere = 'N' if coordinate[0] >= 0 else 'S'`. -/
def hemisphere_of (lat : ℚ) : Char :=
  if 0 ≤ lat then 'N' else 'S'

/-- numpy scalar integer indexing into one axis: indices in `[0, len)`
are used as they are, indices in `[-len, 0)` wrap around to the end of
the axis, anything else raises `IndexError` (modelled as `none`). -/
def npIndex {α : Type} (xs : List α) (i : Int) : Option α :=
  if 0 ≤ i then xs.get? i.toNat
  else if -(xs.length : Int) ≤ i then xs.get? (i + xs.length).toNat
  else none

/-- numpy indexing `data[i, j]` on a 2-D array modelled as a list of
rows. -/
def npGet2 {α : Type} (data : List (List α)) (i j : Int) : Option α :=
  match npIndex data i with
  | some row => npIndex row j
  | none => none

/-- Source lines 64-73: `data[int(pixel_row), int(pixel_col)]` inside
`try`, with `IndexError`/`ValueError` collapsed to `None` and a NaN
value (here `some none`) also collapsed to `None`. -/
def extract_at_pixel (data : List (List (Option ℚ))) (pixel_row pixel_col : ℚ) :
    Option ℚ :=
  match npGet2 data (pyInt pixel_row) (pyInt pixel_col) with
  | none => none
  | some none => none
  | some (some v) => some v

/-- Source lines 63-75, the tail of `resample_and_extract_value`:
`pixel_col, pixel_row = ~dst_transform * (easting, northing)` followed by
the guarded lookup `data[int(pixel_row), int(pixel_col)]`. -/
def resample_extract (dst_transform : Affine) (easting northing : ℚ)
    (data : List (List (Option ℚ))) : Option ℚ :=
  let pcr := dst_transform.inv.apply (easting, northing)
  extract_at_pixel data pcr.2 pcr.1

/-- Source line 42: `scale_factor_x = new_resolution_meters / old_resolution_meters`. -/
def scale_factor_x (old_resolution_meters new_resolution_meters : ℚ) : ℚ :=
  new_resolution_meters / old_resolution_meters

/-- Source line 43: `scale_factor_y = new_resolution_meters / old_resolution_meters`. -/
def scale_factor_y (old_resolution_meters new_resolution_meters : ℚ) : ℚ :=
  new_resolution_meters / old_resolution_meters

/-- Source lines 46-47: the requested destination shape
`(int(width * scale_factor_x), int(height * scale_factor_y))` passed to
`calculate_default_transform`. -/
def requested_shape (width height : ℕ) (old_resolution_meters new_resolution_meters : ℚ) :
    Int × Int :=
  (pyInt (width * scale_factor_x old_resolution_meters new_resolution_meters),
   pyInt (height * scale_factor_y old_resolution_meters new_resolution_meters))

/-- Value of a grid (list of rows) at integer position `(i, j)`, with
the constant value 0 outside the grid. This is the padding view that
`scipy.ndimage.generic_filter` with `mode=constant` (default `cval=0`)
presents to the per-pixel function. -/
def gridAt (g : List (List ℚ)) (i j : Int) : ℚ :=
  if 0 ≤ i ∧ 0 ≤ j then ((((g.get? i.toNat).getD []).get? j.toNat).getD 0) else 0

/-- The row-major flattening of the `ws × ws` footprint that
`generic_filter` with `size=ws` passes to the per-pixel function at
pixel `(r, c)`: flat position `k` holds the padded grid value at offset
`(k / ws - ws/2, k % ws - ws/2)` from `(r, c)`. -/
def neighborhood (ws : ℕ) (g : List (List ℚ)) (r c : ℕ) : List ℚ :=
  (List.range (ws * ws)).map (fun k =>
    gridAt g ((r : Int) + (k / ws : ℕ) - (ws / 2 : ℕ)) ((c : Int) + (k % ws : ℕ) - (ws / 2 : ℕ)))

/-- numpy `np.mean` of a flat buffer (0 on an empty buffer, since `ℚ`
division by zero is zero). -/
def listMean (xs : List ℚ) : ℚ :=
  xs.sum / xs.length

/-- numpy `np.var` of a flat buffer: the population variance, the mean
of the squared deviations from the mean. -/
def listVar (xs : List ℚ) : ℚ :=
  (xs.map (fun x => (x - listMean xs) ^ 2)).sum / xs.length

/-- Source lines 171-177, `lee_filter_single_pixel(w)`: the per-pixel
rule applied to the flattened footprint buffer `w`. The lookup
`w.reshape((ws, ws))[ws // 2, ws // 2]` is the flat row-major index
`(ws / 2) * ws + ws / 2`. -/
def lee_filter_single_pixel (ws : ℕ) (w : List ℚ) : ℚ :=
  let local_mean := listMean w
  let local_variance := listVar w
  if local_variance = 0 then local_mean
  else (w.get? (ws / 2 * ws + ws / 2)).getD 0 * local_variance / (local_variance + 1)

/-- Source line 179: `generic_filter(window, lee_filter_single_pixel,
size=ws, mode=constant)` — apply the per-pixel rule at every position of
the grid, each time over the zero-padded `ws × ws` footprint centred
there, producing a grid of the same shape. -/
def generic_filter (ws : ℕ) (g : List (List ℚ)) : List (List ℚ) :=
  (List.range g.length).map (fun r =>
    (List.range ((g.get? r).getD []).length).map (fun c =>
      lee_filter_single_pixel ws (neighborhood ws g r c)))

/-- A rasterio dataset as the embedded code uses it: a single band of
pixel values, the dataset bounds, and the affine transform from pixel
`(col, row)` to CRS `(x, y)`. -/
structure Raster where
  width : ℕ
  height : ℕ
  grid : ℕ → ℕ → ℚ
  left : ℚ
  right : ℚ
  bottom : ℚ
  top : ℚ
  tf : Affine

/-- rasterio `dataset.index(x, y)`: invert the dataset transform and
floor the fractional `(col, row)` (rasterio's default `op=math.floor`),
returning `(row, col)`. -/
def dataset_index (d : Raster) (x y : ℚ) : Int × Int :=
  let p := d.tf.inv.apply (x, y)
  (⌊p.2⌋, ⌊p.1⌋)

/-- rasterio `dataset.read(1, window=((r0, r1), (c0, c1)))` with the
default non-boundless behaviour: the requested window is cropped to the
dataset extent and the corresponding sub-grid of pixel values is
returned (an empty grid when the cropped window is empty). -/
def readWindow (d : Raster) (r0 r1 c0 c1 : Int) : List (List ℚ) :=
  let rlo := max r0 0
  let rhi := min r1 (d.height : Int)
  let clo := max c0 0
  let chi := min c1 (d.width : Int)
  if rlo < rhi ∧ clo < chi then
    (List.range (rhi - rlo).toNat).map (fun (i : ℕ) =>
      (List.range (chi - clo).toNat).map (fun (j : ℕ) =>
        d.grid (rlo + (i : Int)).toNat (clo + (j : Int)).toNat))
  else []

/-- Source lines 141-183, `lee_filter(window_size, dataset, coordinate)`
with `coordinate = (lat, lon)`: if the point passes the bounds check
(`left ≤ lon ≤ right` and `bottom ≤ lat ≤ top`), read the
`window_size × window_size` window anchored at `dataset.index(lon, lat)`
and return the generic-filtered window; otherwise return `None`. -/
def lee_filter (window_size : ℕ) (d : Raster) (coordinate : ℚ × ℚ) :
    Option (List (List ℚ)) :=
  if d.left ≤ coordinate.2 ∧ coordinate.2 ≤ d.right ∧
      d.bottom ≤ coordinate.1 ∧ coordinate.1 ≤ d.top then
    let rc := dataset_index d coordinate.2 coordinate.1
    some (generic_filter window_size
      (readWindow d rc.1 (rc.1 + (window_size : Int)) rc.2 (rc.2 + (window_size : Int))))
  else none

/-- Source lines 110-139, `extract_values_at_coordinates(dataset,
coordinate)` with `coordinate = (lat, lon)`: one `None` is appended when
the point fails the bounds check, and otherwise the single pixel of the
1×1 window at `dataset.index(lon, lat)` is appended (with an
`IndexError` on an empty read collapsed to `None`). The returned list is
whatever was appended. -/
def extract_values_at_coordinates (d : Raster) (coordinate : ℚ × ℚ) :
    List (Option ℚ) :=
  if d.left ≤ coordinate.2 ∧ coordinate.2 ≤ d.right ∧
      d.bottom ≤ coordinate.1 ∧ coordinate.1 ≤ d.top then
    let rc := dataset_index d coordinate.2 coordinate.1
    match (readWindow d rc.1 (rc.1 + 1) rc.2 (rc.2 + 1)).head?.bind List.head? with
    | some v => [some v]
    | none => [none]
  else [none]

/-- A small concrete raster used to instantiate the theorems below: a
4×4 grid with `grid i j = 10*i + j`, bounds `[0,10] × [0,10]`, and the
identity pixel-to-CRS transform. -/
def testRaster : Raster :=
  { width := 4
    height := 4
    grid := fun i j => (i : ℚ) * 10 + (j : ℚ)
    left := 0
    right := 10
    bottom := 0
    top := 10
    tf := { a := 1, b := 0, c := 0, d := 0, e := 1, f := 0 } }

/-- C3: `get_utm_zone` computes `floor((longitude + 180) / 6) + 1` and
resets the result to 1 when it exceeds 60; consequently for every
longitude in `[-180, 180)` the returned zone is in `[1, 60]`, with
`get_utm_zone 179.9999 = 60` and `get_utm_zone (-180) = 1`. (For
`longitude ≥ -180` the Python truncation `int` agrees with `floor`
because its argument is nonnegative.) -/
theorem utm_zone_formula_and_range :
    (∀ L : ℚ, -180 ≤ L →
      get_utm_zone L =
        if ⌊(L + 180) / 6⌋ + 1 > 60 then 1 else ⌊(L + 180) / 6⌋ + 1) ∧
    (∀ L : ℚ, -180 ≤ L → L < 180 →
      1 ≤ get_utm_zone L ∧ get_utm_zone L ≤ 60) ∧
    get_utm_zone (1799999 / 10000) = 60 ∧ get_utm_zone (-180) = 1 := by
  have hfloor : ∀ L : ℚ, -180 ≤ L →
      get_utm_zone L =
        if ⌊(L + 180) / 6⌋ + 1 > 60 then 1 else ⌊(L + 180) / 6⌋ + 1 := by
    intro L hL
    have h0 : (0 : ℚ) ≤ (L + 180) / 6 := div_nonneg (by linarith) (by norm_num)
    unfold get_utm_zone pyInt
    rw [if_pos h0]
  refine ⟨hfloor, ?_, ?_, ?_⟩
  · intro L h1 h2
    have h0 : (0 : ℚ) ≤ (L + 180) / 6 := div_nonneg (by linarith) (by norm_num)
    have hlow : 0 ≤ ⌊(L + 180) / 6⌋ := Int.floor_nonneg.mpr h0
    have hhigh : ⌊(L + 180) / 6⌋ < 60 := by
      apply Int.floor_lt.mpr
      push_cast
      linarith
    rw [hfloor L h1]
    split <;> omega
  · norm_num [get_utm_zone, pyInt]
  · norm_num [get_utm_zone, pyInt]

/-- Witness for C3: the formula conjunct of `utm_zone_formula_and_range`
instantiated at longitude 5. -/
theorem utm_zone_formula_and_range_witness :
    (-180 : ℚ) ≤ 5 ∧
    get_utm_zone 5 =
      (if ⌊((5 : ℚ) + 180) / 6⌋ + 1 > 60 then 1 else ⌊((5 : ℚ) + 180) / 6⌋ + 1) :=
  ⟨by norm_num, utm_zone_formula_and_range.1 5 (by norm_num)⟩

/-- C4 counterexample: at hemisphere 'X' the source `get_epsg_code`
does not fail with the `UnsupportedHemisphereError` the claim names (it
raises `UnboundLocalError`, since `epsg_code` was never assigned). -/
theorem epsg_code_counterexample :
    ¬ get_epsg_code 31 'X' = Except.error PyError.unsupportedHemisphereError := by
  intro h
  have hx : get_epsg_code 31 'X' = Except.error PyError.unboundLocalError := rfl
  rw [hx] at h
  injection h with h2
  exact PyError.noConfusion h2

/-- C4 amended: for every hemisphere argument that is neither 'N' nor
'S', `get_epsg_code` fails — `epsg_code` is never assigned and the
`return` raises `UnboundLocalError` — rather than returning a value. -/
theorem epsg_code_fails_on_other_hemisphere (utm_zone : Int) (hemisphere : Char)
    (hN : hemisphere ≠ 'N') (hS : hemisphere ≠ 'S') :
    get_epsg_code utm_zone hemisphere = Except.error PyError.unboundLocalError := by
  unfold get_epsg_code
  rw [if_neg hN, if_neg hS]

/-- Witness for the amended C4: hemisphere 'X' with zone 31. -/
theorem epsg_code_fails_on_other_hemisphere_witness :
    ('X' ≠ 'N') ∧ ('X' ≠ 'S') ∧
    get_epsg_code 31 'X' = Except.error PyError.unboundLocalError :=
  ⟨by decide, by decide,
    epsg_code_fails_on_other_hemisphere 31 'X' (by decide) (by decide)⟩

/-- C9: `get_epsg_code` returns `32600 + zone` for hemisphere 'N'
(which `resample_and_extract_value` derives from `latitude ≥ 0`) and
`32700 + zone` for 'S'; in particular `get_epsg_code 31 'N' = 32631`
and `get_epsg_code 31 'S' = 32731`. -/
theorem epsg_code_north_south :
    (∀ z : Int, get_epsg_code z 'N' = Except.ok (32600 + z) ∧
      get_epsg_code z 'S' = Except.ok (32700 + z)) ∧
    (∀ lat : ℚ, 0 ≤ lat → hemisphere_of lat = 'N') ∧
    (∀ lat : ℚ, lat < 0 → hemisphere_of lat = 'S') ∧
    get_epsg_code 31 'N' = Except.ok 32631 ∧
    get_epsg_code 31 'S' = Except.ok 32731 := by
  refine ⟨fun z => ⟨rfl, rfl⟩, ?_, ?_, rfl, rfl⟩
  · intro lat h
    unfold hemisphere_of
    rw [if_pos h]
  · intro lat h
    unfold hemisphere_of
    rw [if_neg (not_le.mpr h)]

/-- Witness for C9: the hemisphere conjunct instantiated at latitude 1. -/
theorem epsg_code_north_south_witness :
    (0 : ℚ) ≤ 1 ∧ hemisphere_of 1 = 'N' :=
  ⟨by norm_num, epsg_code_north_south.2.1 1 (by norm_num)⟩

/-- C6: the requested target grid shape uses the single scale factor
`new_resolution / old_resolution` identically on both axes, giving
requested width `floor(width × factor)` and height
`floor(height × factor)` (Python `int` truncation agrees with `floor`
here because the product is nonnegative). -/
theorem requested_shape_uniform_floor (width height : ℕ)
    (old_resolution_meters new_resolution_meters : ℚ)
    (ho : 0 < old_resolution_meters) (hn : 0 ≤ new_resolution_meters) :
    scale_factor_x old_resolution_meters new_resolution_meters =
      scale_factor_y old_resolution_meters new_resolution_meters ∧
    requested_shape width height old_resolution_meters new_resolution_meters =
      (⌊(width : ℚ) * (new_resolution_meters / old_resolution_meters)⌋,
       ⌊(height : ℚ) * (new_resolution_meters / old_resolution_meters)⌋) := by
  have hf : (0 : ℚ) ≤ new_resolution_meters / old_resolution_meters :=
    div_nonneg hn ho.le
  refine ⟨rfl, ?_⟩
  unfold requested_shape scale_factor_x scale_factor_y pyInt
  rw [if_pos (mul_nonneg (Nat.cast_nonneg width) hf),
    if_pos (mul_nonneg (Nat.cast_nonneg height) hf)]

/-- Witness for C6: a 100×50 raster resampled from 10 m to 5 m pixels. -/
theorem requested_shape_uniform_floor_witness :
    (0 : ℚ) < 10 ∧ (0 : ℚ) ≤ 5 ∧
    (scale_factor_x 10 5 = scale_factor_y 10 5 ∧
      requested_shape 100 50 10 5 =
        (⌊(100 : ℚ) * ((5 : ℚ) / 10)⌋, ⌊(50 : ℚ) * ((5 : ℚ) / 10)⌋)) :=
  ⟨by norm_num, by norm_num,
    requested_shape_uniform_floor 100 50 10 5 (by norm_num) (by norm_num)⟩

/-- C5: the pixel address is obtained by applying the inverse of the
target affine transform to `(easting, northing)` — `Affine.inv` really
is the inverse whenever the transform is invertible — and the resulting
fractional `(col, row)` pair is truncated toward zero (floor for
nonnegative values, ceiling for negative ones, so `3/2 ↦ 1`, not the
rounded 2) before indexing the resampled grid. -/
theorem resample_pixel_addressing (T : Affine) (easting northing : ℚ)
    (data : List (List (Option ℚ))) (hdet : T.det ≠ 0) :
    T.apply (T.inv.apply (easting, northing)) = (easting, northing) ∧
    resample_extract T easting northing data =
      extract_at_pixel data (T.inv.apply (easting, northing)).2
        (T.inv.apply (easting, northing)).1 ∧
    (∀ q : ℚ, 0 ≤ q → pyInt q = ⌊q⌋) ∧
    (∀ q : ℚ, q < 0 → pyInt q = ⌈q⌉) ∧
    pyInt (3 / 2) = 1 ∧ pyInt (-(3 / 2)) = -1 := by
  refine ⟨?_, rfl, ?_, ?_, ?_, ?_⟩
  · unfold Affine.apply Affine.inv Affine.det at *
    dsimp only
    rw [Prod.mk.injEq]
    constructor <;> (field_simp; ring)
  · intro q h
    unfold pyInt
    rw [if_pos h]
  · intro q h
    unfold pyInt
    rw [if_neg (not_le.mpr h)]
  · norm_num [pyInt]
  · norm_num [pyInt, Int.ceil_neg]

/-- Witness for C5: the scaling-plus-translation transform
`(x, y) ↦ (2x + 1, 3y + 4)` at the point `(7, 10)`. -/
theorem resample_pixel_addressing_witness :
    ({ a := 2, b := 0, c := 1, d := 0, e := 3, f := 4 } : Affine).det ≠ 0 ∧
    ({ a := 2, b := 0, c := 1, d := 0, e := 3, f := 4 } : Affine).apply
        (({ a := 2, b := 0, c := 1, d := 0, e := 3, f := 4 } : Affine).inv.apply (7, 10)) =
      (7, 10) :=
  ⟨by norm_num [Affine.det],
    (resample_pixel_addressing { a := 2, b := 0, c := 1, d := 0, e := 3, f := 4 }
      7 10 [] (by norm_num [Affine.det])).1⟩

/-- C1 failing evaluation: on a 1×1 raster holding the pixel value 5,
a reprojected point one pixel row above the grid (fractional address
`(col, row) = (0, -1)`, outside the raster extent) makes
`resample_and_extract_value` return the pixel 5 — numpy wraps the
negative row index around to the last row instead of raising the
`IndexError` the code relies on — rather than the `None` that both the
claim and the function's own docstring promise. -/
theorem resample_extract_negative_wraparound :
    resample_extract { a := 1, b := 0, c := 0, d := 0, e := 1, f := 0 } 0 (-1)
      [[some 5]] = some 5 := by
  norm_num [resample_extract, extract_at_pixel, Affine.inv, Affine.apply,
    Affine.det, pyInt, npGet2, npIndex, Int.ceil_neg]

/-- C10: `extract_values_at_coordinates` always returns a list of
length exactly one (each control path appends exactly one element —
a pixel value or `None` — to the initially empty list). -/
theorem extract_values_length_one (d : Raster) (coordinate : ℚ × ℚ) :
    (extract_values_at_coordinates d coordinate).length = 1 := by
  have hm : ∀ o : Option ℚ,
      (match o with
        | some v => ([some v] : List (Option ℚ))
        | none => [none]).length = 1 := by
    intro o
    cases o <;> rfl
  unfold extract_values_at_coordinates
  split
  · exact hm _
  · rfl

/-- C8: for every point that fails the bounds check — longitude
compared against left/right and latitude against bottom/top — the
source `lee_filter` returns `None`. -/
theorem lee_filter_out_of_bounds (window_size : ℕ) (d : Raster)
    (coordinate : ℚ × ℚ)
    (h : coordinate.2 < d.left ∨ d.right < coordinate.2 ∨
      coordinate.1 < d.bottom ∨ d.top < coordinate.1) :
    lee_filter window_size d coordinate = none := by
  unfold lee_filter
  rw [if_neg]
  rintro ⟨h1, h2, h3, h4⟩
  rcases h with h | h | h | h <;> linarith

/-- Witness for C8: the point `(lat, lon) = (20, 1)` lies above
`testRaster`'s top bound 10, and the filter returns `None` there. -/
theorem lee_filter_out_of_bounds_witness :
    (((20 : ℚ), (1 : ℚ)).2 < testRaster.left ∨
      testRaster.right < ((20 : ℚ), (1 : ℚ)).2 ∨
      ((20 : ℚ), (1 : ℚ)).1 < testRaster.bottom ∨
      testRaster.top < ((20 : ℚ), (1 : ℚ)).1) ∧
    lee_filter 3 testRaster (20, 1) = none :=
  ⟨by norm_num [testRaster],
    lee_filter_out_of_bounds 3 testRaster (20, 1) (by norm_num [testRaster])⟩

/-- Reading a grid at in-range natural coordinates goes through the
padding unchanged. -/
theorem gridAt_natCast (g : List (List ℚ)) (r c : ℕ) :
    gridAt g r c = (((g.get? r).getD []).get? c).getD 0 := by
  unfold gridAt
  rw [if_pos ⟨Int.natCast_nonneg r, Int.natCast_nonneg c⟩]
  simp

/-- The flat row-major index of the footprint centre is inside the
footprint buffer. -/
theorem center_index_lt (ws : ℕ) (hws : 0 < ws) :
    ws / 2 * ws + ws / 2 < ws * ws :=
  calc ws / 2 * ws + ws / 2 < ws / 2 * ws + ws := by omega
    _ = (ws / 2 + 1) * ws := by ring
    _ ≤ ws * ws := Nat.mul_le_mul_right ws (by omega)

/-- The footprint buffer element at flat index `(ws/2)*ws + ws/2` — the
value the source reads as `w.reshape((ws, ws))[ws // 2, ws // 2]` — is
the padded grid value at the pixel itself. -/
theorem neighborhood_get_center (ws : ℕ) (hws : 0 < ws) (g : List (List ℚ))
    (r c : ℕ) :
    (neighborhood ws g r c).get? (ws / 2 * ws + ws / 2) =
      some (gridAt g r c) := by
  have hq : ws / 2 < ws := Nat.div_lt_self hws (by norm_num)
  have hdiv : (ws / 2 * ws + ws / 2) / ws = ws / 2 := by
    rw [Nat.mul_comm, Nat.mul_add_div hws, Nat.div_eq_of_lt hq, Nat.add_zero]
  have hmod : (ws / 2 * ws + ws / 2) % ws = ws / 2 := by
    rw [Nat.mul_add_mod', Nat.mod_eq_of_lt hq]
  unfold neighborhood
  rw [List.get?_map, List.get?_range (center_index_lt ws hws)]
  rw [Option.map_some']
  rw [hdiv, hmod]
  congr 2 <;> ring

/-- Position `(r, c)` of the filtered grid holds the per-pixel rule
applied to the footprint buffer at `(r, c)`. -/
theorem generic_filter_apply (ws : ℕ) (g : List (List ℚ)) (r c : ℕ)
    (hr : r < g.length) (hc : c < ((g.get? r).getD []).length) :
    (((generic_filter ws g).get? r).getD []).get? c =
      some (lee_filter_single_pixel ws (neighborhood ws g r c)) := by
  unfold generic_filter
  rw [List.get?_map, List.get?_range hr, Option.map_some', Option.getD_some]
  rw [List.get?_map, List.get?_range hc, Option.map_some']

/-- C2: for every pixel position of the window processed by
`lee_filter`, the per-pixel output is the local neighbourhood mean when
the local variance is zero, and otherwise
`center_value × local_variance / (local_variance + 1)`, where the local
mean and variance are taken over the `window_size`-sized neighbourhood
with constant zero padding at the edges and `center_value` is the
window's own value at that pixel. -/
theorem lee_per_pixel_rule (ws : ℕ) (g : List (List ℚ)) (r c : ℕ)
    (hws : 0 < ws) (hr : r < g.length)
    (hc : c < ((g.get? r).getD []).length) :
    (((generic_filter ws g).get? r).getD []).get? c =
      some (if listVar (neighborhood ws g r c) = 0
        then listMean (neighborhood ws g r c)
        else (((g.get? r).getD []).get? c).getD 0 *
          listVar (neighborhood ws g r c) /
          (listVar (neighborhood ws g r c) + 1)) := by
  rw [generic_filter_apply ws g r c hr hc]
  unfold lee_filter_single_pixel
  rw [neighborhood_get_center ws hws g r c, gridAt_natCast]
  simp only [Option.getD_some]

/-- Witness for C2: the 2×2 window `[[1, 2], [3, 4]]` filtered with
window size 1, at pixel `(0, 0)`. -/
theorem lee_per_pixel_rule_witness :
    0 < 1 ∧ 0 < ([[( 1 : ℚ), 2], [3, 4]] : List (List ℚ)).length ∧
    0 < ((([[(1 : ℚ), 2], [3, 4]] : List (List ℚ)).get? 0).getD []).length ∧
    (((generic_filter 1 [[(1 : ℚ), 2], [3, 4]]).get? 0).getD []).get? 0 =
      some (if listVar (neighborhood 1 [[(1 : ℚ), 2], [3, 4]] 0 0) = 0
        then listMean (neighborhood 1 [[(1 : ℚ), 2], [3, 4]] 0 0)
        else (((([[(1 : ℚ), 2], [3, 4]] : List (List ℚ)).get? 0).getD []).get? 0).getD 0 *
          listVar (neighborhood 1 [[(1 : ℚ), 2], [3, 4]] 0 0) /
          (listVar (neighborhood 1 [[(1 : ℚ), 2], [3, 4]] 0 0) + 1)) :=
  ⟨by norm_num, by norm_num, by norm_num,
    lee_per_pixel_rule 1 [[(1 : ℚ), 2], [3, 4]] 0 0 (by norm_num) (by norm_num)
      (by norm_num)⟩

/-- A window of `window_size` rows and columns anchored at natural
`(row, col)` and lying fully inside the dataset extent reads exactly
the sub-grid extending down and right from `(row, col)`. -/
theorem readWindow_full (d : Raster) (r c ws : ℕ) (hws : 0 < ws)
    (hrows : r + ws ≤ d.height) (hcols : c + ws ≤ d.width) :
    readWindow d (r : Int) ((r : Int) + (ws : Int)) (c : Int) ((c : Int) + (ws : Int)) =
      (List.range ws).map (fun i =>
        (List.range ws).map (fun j => d.grid (r + i) (c + j))) := by
  unfold readWindow
  have h1 : max (r : Int) 0 = (r : Int) := max_eq_left (Int.natCast_nonneg r)
  have h2 : min ((r : Int) + (ws : Int)) (d.height : Int) = (r : Int) + (ws : Int) := by
    apply min_eq_left
    exact_mod_cast hrows
  have h3 : max (c : Int) 0 = (c : Int) := max_eq_left (Int.natCast_nonneg c)
  have h4 : min ((c : Int) + (ws : Int)) (d.width : Int) = (c : Int) + (ws : Int) := by
    apply min_eq_left
    exact_mod_cast hcols
  rw [h1, h2, h3, h4]
  rw [if_pos ⟨by omega, by omega⟩]
  have h5 : ((r : Int) + (ws : Int) - (r : Int)).toNat = ws := by omega
  have h6 : ((c : Int) + (ws : Int) - (c : Int)).toNat = ws := by omega
  rw [h5, h6]
  apply List.map_congr_left
  intro i hi
  apply List.map_congr_left
  intro j hj
  have hgr : ((r : Int) + (i : Int)).toNat = r + i := by omega
  have hgc : ((c : Int) + (j : Int)).toNat = c + j := by omega
  rw [hgr, hgc]

/-- The filtered grid has as many rows as the input grid. -/
theorem generic_filter_length (ws : ℕ) (g : List (List ℚ)) :
    (generic_filter ws g).length = g.length := by
  unfold generic_filter
  rw [List.length_map, List.length_range]

/-- Every row of the filtered grid has the length of the corresponding
input row. -/
theorem generic_filter_row_length (ws : ℕ) (g : List (List ℚ))
    (row : List ℚ) (hrow : row ∈ generic_filter ws g) :
    ∃ r : ℕ, r < g.length ∧ row.length = ((g.get? r).getD []).length := by
  unfold generic_filter at hrow
  obtain ⟨r, hr, rfl⟩ := List.mem_map.mp hrow
  exact ⟨r, List.mem_range.mp hr, by rw [List.length_map, List.length_range]⟩

/-- C7: for an in-bounds point whose anchored window lies inside the
raster extent, `lee_filter` reads the `window_size × window_size`
sub-grid anchored at the point's `(row, col)` index and extending down
and right from it, and returns the entire filtered sub-grid — a
`window_size × window_size` grid, not a single scalar. -/
theorem lee_filter_window_anchoring (ws : ℕ) (d : Raster) (lat lon : ℚ)
    (r c : ℕ) (hws : 0 < ws)
    (hidx : dataset_index d lon lat = ((r : Int), (c : Int)))
    (hb : d.left ≤ lon ∧ lon ≤ d.right ∧ d.bottom ≤ lat ∧ lat ≤ d.top)
    (hrows : r + ws ≤ d.height) (hcols : c + ws ≤ d.width) :
    lee_filter ws d (lat, lon) =
      some (generic_filter ws ((List.range ws).map (fun i =>
        (List.range ws).map (fun j => d.grid (r + i) (c + j))))) ∧
    (generic_filter ws ((List.range ws).map (fun i =>
      (List.range ws).map (fun j => d.grid (r + i) (c + j))))).length = ws ∧
    ∀ row ∈ generic_filter ws ((List.range ws).map (fun i =>
      (List.range ws).map (fun j => d.grid (r + i) (c + j)))),
      row.length = ws := by
  refine ⟨?_, ?_, ?_⟩
  · unfold lee_filter
    rw [if_pos]
    · dsimp only
      rw [hidx]
      dsimp only
      rw [readWindow_full d r c ws hws hrows hcols]
    · exact hb
  · rw [generic_filter_length, List.length_map, List.length_range]
  · intro row hrow
    obtain ⟨rr, hrr, hlen⟩ := generic_filter_row_length ws _ row hrow
    rw [List.length_map, List.length_range] at hrr
    rw [hlen, List.get?_map, List.get?_range hrr, Option.map_some',
      Option.getD_some, List.length_map, List.length_range]

/-- Witness for C7: `testRaster` with window size 2 at the point
`(lat, lon) = (1, 1)`, whose pixel index is `(1, 1)`. -/
theorem lee_filter_window_anchoring_witness :
    0 < 2 ∧
    dataset_index testRaster 1 1 = ((1 : Int), (1 : Int)) ∧
    (testRaster.left ≤ 1 ∧ (1 : ℚ) ≤ testRaster.right ∧
      testRaster.bottom ≤ 1 ∧ (1 : ℚ) ≤ testRaster.top) ∧
    1 + 2 ≤ testRaster.height ∧ 1 + 2 ≤ testRaster.width ∧
    (lee_filter 2 testRaster (1, 1) =
        some (generic_filter 2 ((List.range 2).map (fun i =>
          (List.range 2).map (fun j => testRaster.grid (1 + i) (1 + j))))) ∧
      (generic_filter 2 ((List.range 2).map (fun i =>
        (List.range 2).map (fun j => testRaster.grid (1 + i) (1 + j))))).length = 2 ∧
      ∀ row ∈ generic_filter 2 ((List.range 2).map (fun i =>
        (List.range 2).map (fun j => testRaster.grid (1 + i) (1 + j)))),
        row.length = 2) :=
  ⟨by norm_num,
    by norm_num [dataset_index, testRaster, Affine.inv, Affine.apply, Affine.det],
    by norm_num [testRaster],
    by norm_num [testRaster], by norm_num [testRaster],
    lee_filter_window_anchoring 2 testRaster 1 1 1 1 (by norm_num)
      (by norm_num [dataset_index, testRaster, Affine.inv, Affine.apply, Affine.det])
      (by norm_num [testRaster])
      (by norm_num [testRaster]) (by norm_num [testRaster])⟩

end Geo
